import Mathlib

/-!
Verification of `src/run_transformer_batch_prediction.py` from
ClinicalTransformerNER: a shallow embedding of the batch NER prediction
orchestrator and proofs about its behaviour.

The script's only module is `run_transformer_batch_prediction.py`.  External
collaborators (the data processor, feature converter, model inference, file
system reads and the label vocabulary loader) are imported from packages not
present in this repository snapshot; they are represented as oracle functions
in an `Env` record, each returning `Except` to model Python exceptions.

Note on fidelity: in the committed source, the block guarded by
`if args.use_bio:` (lines 68-76) is mis-indented — the four statements after
the `if` sit at the same indentation level as the `if` itself, so the module
fails to parse (`IndentationError` at line 69).  The embedding of the loop
body below restores the evidently intended indentation, which is also the
contract stated in the specification (use_bio=true: write BIO per file;
use_bio=false: accumulate in memory).  Everything else is translated directly
from the source text.
-/

namespace BatchNER

/-- A token of a test example: `text, start, end, tag`
(`end` is renamed `stop`, `end` being a keyword). -/
structure Token where
  text : String
  start : Nat
  stop : Nat
  tag : String
deriving DecidableEq, Repr

/-- One sentence = ordered sequence of tokens. -/
abbrev Sentence := List Token

/-- One file's test examples = list of sentences. -/
abbrev TestExample := List Sentence

/-- Modelled from the spec: `Feature`/`Prediction` data produced by
`transformer_convert_data_to_features` and `predict`
(`transformer_ner/data_utils.py` and `transformer_ner/task.py`, which are not
under `src/`).  For one sentence: the predicted label per sub-word position,
and for each original word the index of its first sub-token (the alignment
markers recorded during sub-word tokenization). -/
structure SentPrediction where
  subLabels : List String
  firstSub : List Nat
deriving DecidableEq, Repr

/-- Modelled from the spec: word-level realignment performed by `_output_bio`
(`transformer_ner/task.py`, not under `src/`): each original word receives the
predicted label of its first sub-token. -/
def wordLevelLabels (p : SentPrediction) : List String :=
  p.firstSub.map (fun i => p.subLabels.getD i "O")

/-- Modelled from the spec: the `text \t tag` lines `_output_bio` emits for
one sentence, pairing each original token with its realigned label. -/
def sentenceBioLines (sent : Sentence) (labels : List String) : List String :=
  (sent.zip labels).map (fun tl => tl.1.text ++ "\t" ++ tl.2)

/-- Modelled from the spec: the full line sequence `_output_bio` writes for a
file when `save_bio` is true: per sentence, one `text \t tag` line per token,
with a blank line terminating each sentence. -/
def bioLines (ex : TestExample) (preds : List SentPrediction) : List String :=
  ((ex.zip preds).map
    (fun sp => sentenceBioLines sp.1 (wordLevelLabels sp.2) ++ [""])).flatten

/-- Modelled from the spec: the file content written by `_output_bio`. -/
def bioFileContent (ex : TestExample) (preds : List SentPrediction) : String :=
  String.intercalate "\n" (bioLines ex preds)

/-- Modelled from the spec: the structured sentence list `_output_bio` returns
when `save_bio=False`: per sentence, tokens paired with realigned labels. -/
def outputBioMem (ex : TestExample) (preds : List SentPrediction) :
    List (List (Token × String)) :=
  (ex.zip preds).map (fun sp => sp.1.zip (wordLevelLabels sp.2))

/-- Total number of tokens in one file's examples. -/
def totalTokens (ex : TestExample) : Nat := (ex.map List.length).sum

/-- Number of non-blank lines in a line list. -/
def countNonBlank (lines : List String) : Nat :=
  (lines.filter (fun l => l ≠ "")).length

/-! ### Filenames and paths (pathlib semantics used by the script) -/

/-- Python `str.split(sep)` for a single-character separator, over the
string's character list (as in Python, `"".split(".") == [""]` and a
separator at either end yields an empty segment). -/
def splitOnChar (c : Char) : List Char → List (List Char)
  | [] => [[]]
  | x :: xs =>
    let r := splitOnChar c xs
    if x = c then [] :: r
    else
      match r with
      | [] => [[x]]
      | y :: ys => (x :: y) :: ys

/-- `pathlib.PurePath.stem` on a final path component: the name without its
last suffix; names with no dot, or whose only dot is leading, are their own
stem. -/
def stemChars (name : List Char) : List Char :=
  match splitOnChar '.' name with
  | [] => name
  | [_] => name
  | [[], _] => name
  | parts => List.intercalate ['.'] parts.dropLast

/-- `pathlib.PurePath.stem` of a filename. -/
def stem (name : String) : String := String.mk (stemChars name.data)

/-- The first segment of a string before its first dot
(Python `s.split(".")[0]`). -/
def headSegment (s : String) : String :=
  String.mk ((splitOnChar '.' s.data).headD [])

/-- The output filename computed in `main`:
`each_file.stem.split(".")[0] + ".bio.txt"` (line 70). -/
def outputFileName (name : String) : String :=
  headSegment (stem name) ++ ".bio.txt"

/-- `pathlib.PurePath.parent` for a relative or absolute path without
trailing slashes: drop the last component; a single-component path has
parent `"."`. -/
def parentPath (p : String) : String :=
  match splitOnChar '/' p.data with
  | [] => "."
  | [_] => "."
  | parts => String.mk (List.intercalate ['/'] parts.dropLast)

/-- `pathlib.PurePath.stem` of a full path: stem of its last component. -/
def pathStem (p : String) : String :=
  String.mk (stemChars ((splitOnChar '/' p.data).getLastD []))

/-- `os.path.join` / `pathlib` `/` on normalized paths
(joining onto `"."` drops the dot, as pathlib does). -/
def joinPath (a b : String) : String :=
  if a = "." then b else a ++ "/" ++ b

/-! ### The configuration object (`args`)

`argparser` produces a namespace of CLI values; `__main__` attaches `logger`
and `device`, and `main` attaches `label2idx`, `idx2label`, `tokenizer`,
`config`, `use_crf` and, inside the loop, `predict_output_file`.  The record
carries the CLI fields the orchestration logic reads plus the fields `main`
assigns (the opaque `tokenizer`/`config`/`logger`/`device` objects are
represented by the data the script actually consumes from them: `use_crf`
from the config; the logger is the log list in the loop state). -/

/-- The run configuration: CLI-parsed fields, then fields attached by `main`
after parsing (initialized to the "absent attribute" defaults). -/
structure Args where
  model_type : String
  pretrained_model : String
  preprocessed_text_dir : String
  raw_text_dir : String
  data_has_offset_information : Bool
  output_dir : String
  output_dir_brat : Option String
  do_lower_case : Bool
  eval_batch_size : Nat
  max_seq_length : Nat
  do_format : Nat
  do_copy : Bool
  use_bio : Bool
  label2idx : List (String × Nat) := []
  idx2label : List (Nat × String) := []
  use_crf : Bool := false
  predict_output_file : String := ""
deriving DecidableEq, Repr

/-- Opaque handle for the model-input features produced by
`transformer_convert_data_to_features`; the orchestrator never inspects
them, it only passes them to `predict`. -/
structure Features where
  id : Nat
deriving DecidableEq, Repr

/-- Oracles for the external collaborators imported by the script
(`common_utils`, `transformer_ner`, the tokenizer/model libraries and the
file system).  Each returns `Except String` to model a Python call that may
raise; the error string stands for the exception's traceback. -/
structure Env where
  loadLabel2idx : String → Except String (List (String × Nat))
  loadConfigUseCrf : String → Except String Bool
  loadModel : String → Except String Unit
  getTestExamples : String → Except String TestExample
  convertFeatures : TestExample → Except String Features
  predict : Features → Except String (List SentPrediction)
  readFile : String → Except String String

/-- One accumulated value of `labeled_bio_tup_lst` (a `defaultdict(dict)`
entry): the dict may hold a `sents` key, a `raw_text` key, both or neither. -/
structure Entry where
  sents : Option (List (List (Token × String))) := none
  raw_text : Option String := none
deriving DecidableEq, Repr

/-- Association-list lookup for the accumulator (dict lookup). -/
def lookupAcc : List (String × Entry) → String → Option Entry
  | [], _ => none
  | p :: ps, name => if p.1 = name then some p.2 else lookupAcc ps name

/-- Update the accumulator at `name`, creating the `defaultdict` default
entry (`{}`) first when `name` is absent. -/
def updateAcc : List (String × Entry) → String → (Entry → Entry) →
    List (String × Entry)
  | [], name, f => [(name, f {})]
  | p :: ps, name, f =>
    if p.1 = name then (p.1, f p.2) :: ps else p :: updateAcc ps name f

/-- `labeled_bio_tup_lst[name]['sents'] = s`. -/
def setSents (acc : List (String × Entry)) (name : String)
    (s : List (List (Token × String))) : List (String × Entry) :=
  updateAcc acc name (fun e => { e with sents := some s })

/-- `labeled_bio_tup_lst[name]['raw_text'] = r`. -/
def setRaw (acc : List (String × Entry)) (name : String)
    (r : String) : List (String × Entry) :=
  updateAcc acc name (fun e => { e with raw_text := some r })

/-- The files written under the output directory: path ↦ content, a write to
an existing path overwriting its content. -/
def writeFs : List (String × String) → String → String → List (String × String)
  | [], path, content => [(path, content)]
  | p :: ps, path, content =>
    if p.1 = path then (path, content) :: ps else p :: writeFs ps path content

/-- Lookup in the written-file map. -/
def lookupFs : List (String × String) → String → Option String
  | [], _ => none
  | p :: ps, path => if p.1 = path then some p.2 else lookupFs ps path

/-- The orchestrator loop's state: the (mutated) `args` object, the files
written to disk, the in-memory accumulator `labeled_bio_tup_lst`, and the
logger's error sink. -/
structure LoopState where
  args : Args
  fs : List (String × String)
  acc : List (String × Entry)
  log : List String
deriving Repr

/-- The message logged in the `except` branch of the loop (line 78). -/
def errorHeader (fname : String) : String :=
  "Encountered an error when processing predictions for file: " ++ fname

/-- `logger.error(f"...{fname}"); logger.error(traceback.format_exc())`. -/
def logFileError (st : LoopState) (fname : String) (err : String) : LoopState :=
  { st with log := st.log ++ [errorHeader fname, err] }

/-- One iteration of the orchestrator loop (lines 58-79), for the file named
`fname`: read test examples, convert to features, predict; then either write
the BIO file (`use_bio`) or accumulate `sents` and `raw_text` in memory.  Any
oracle error falls through to the `except` branch, which logs the filename
and the traceback and leaves the rest of the state as already mutated.
Modelled from the spec: the indentation of the `if args.use_bio:` branch
(lines 68-76), which is malformed in the committed source, is restored to
the contract the spec states. -/
def processFile (env : Env) (st : LoopState) (fname : String) : LoopState :=
  match env.getTestExamples fname with
  | .error e => logFileError st fname e
  | .ok ex =>
    match env.convertFeatures ex with
    | .error e => logFileError st fname e
    | .ok feats =>
      match env.predict feats with
      | .error e => logFileError st fname e
      | .ok preds =>
        if st.args.use_bio then
          let ofn := outputFileName fname
          let args' := { st.args with
            predict_output_file := joinPath st.args.output_dir ofn }
          { st with
            args := args'
            fs := writeFs st.fs args'.predict_output_file
                    (bioFileContent ex preds) }
        else
          let st1 := { st with acc := setSents st.acc fname (outputBioMem ex preds) }
          match env.readFile fname with
          | .error e => logFileError st1 fname e
          | .ok raw => { st1 with acc := setRaw st1.acc fname raw }

/-- The orchestrator loop over the globbed `*.txt` files, in glob order. -/
def mainLoop (env : Env) (st : LoopState) (files : List String) : LoopState :=
  files.foldl (processFile env) st

/-- The setup part of `main` (lines 32-48): load the label vocabulary, attach
`label2idx`/`idx2label`, load tokenizer and config (attaching `use_crf`), and
load the model.  A failure in any of these propagates (no handler): fatal
before any file is processed. -/
def mainSetup (env : Env) (args : Args) : Except String Args :=
  match env.loadLabel2idx (joinPath args.pretrained_model "label2idx.json") with
  | .error e => .error e
  | .ok label2idx =>
    match env.loadConfigUseCrf args.pretrained_model with
    | .error e => .error e
    | .ok crf =>
      match env.loadModel args.pretrained_model with
      | .error e => .error e
      | .ok _ =>
        .ok { args with
          label2idx := label2idx
          idx2label := label2idx.map (fun p => (p.2, p.1))
          use_crf := crf }

/-- The directory handed to the format converter (line 82):
`args.output_dir_brat` if given, else
`Path(args.output_dir).parent / (Path(args.output_dir).stem + "_formatted_output")`. -/
def formattedOutputDir (args : Args) : String :=
  match args.output_dir_brat with
  | some p => p
  | none => joinPath (parentPath args.output_dir)
      (pathStem args.output_dir ++ "_formatted_output")

/-- The argument record passed to `format_converter` (lines 84-90). -/
structure FormatCall where
  text_dir : String
  input_bio_dir : String
  output_dir : String
  formatter : Nat
  do_copy_text : Bool
  labeled_bio_tup_lst : List (String × Entry)
  use_bio : Bool
deriving Repr

/-- The formatting pass of `main` (lines 81-90): when `args.do_format` is
nonzero (Python truthiness of the int), build the converter call; otherwise
nothing happens. -/
def formatStep (st : LoopState) : Option FormatCall :=
  if st.args.do_format ≠ 0 then
    some { text_dir := st.args.raw_text_dir
           input_bio_dir :=
             if st.args.use_bio then st.args.output_dir else st.args.raw_text_dir
           output_dir := formattedOutputDir st.args
           formatter := st.args.do_format
           do_copy_text := st.args.do_copy
           labeled_bio_tup_lst := st.acc
           use_bio := st.args.use_bio }
  else none

/-- The whole of `main`: setup, the per-file loop, the formatting pass.
Returns the final loop state and the converter call, or the fatal startup
error. -/
def runMain (env : Env) (args : Args) (files : List String) :
    Except String (LoopState × Option FormatCall) :=
  match mainSetup env args with
  | .error e => .error e
  | .ok args' =>
    let st := mainLoop env ⟨args', [], [], []⟩ files
    .ok (st, formatStep st)

/-! ### Module-level version assertion (lines 26-28) -/

/-- A parsed release version, as compared by
`packaging.version.parse` on plain `major.minor.micro` releases. -/
structure Version where
  major : Nat
  minor : Nat
  micro : Nat
deriving DecidableEq, Repr

/-- Lexicographic strict order on release versions. -/
def versionLt (a b : Version) : Bool :=
  a.major < b.major ∨
  (a.major = b.major ∧ (a.minor < b.minor ∨
    (a.minor = b.minor ∧ a.micro < b.micro)))

/-- The module-level `assert pytorch_version >= version.parse('3.0.0')`:
raises `AssertionError` at import time when the installed transformers
version is below 3.0.0. -/
def checkTransformersVersion (v : Version) : Except String Unit :=
  if versionLt v ⟨3, 0, 0⟩ then
    .error "we now only support transformers version >=3.0.0"
  else
    .ok ()

/-- The program from module import onward: the version assertion runs first
(at import, before `main`); only if it passes does the run proceed. -/
def runProgram (v : Version) (env : Env) (args : Args) (files : List String) :
    Except String (LoopState × Option FormatCall) :=
  match checkTransformersVersion v with
  | .error e => .error e
  | .ok _ => runMain env args files

/-! ### Concrete fixtures

A small concrete environment and configuration, used to instantiate the
theorems below (the example data is the scenario of spec §8: tokens
`John lives in Paris` with predictions `B-PER O O B-LOC`). -/

/-- The example sentences of one sample input file. -/
def exSample : TestExample :=
  [[⟨"John", 0, 4, "O"⟩, ⟨"lives", 5, 10, "O"⟩,
    ⟨"in", 11, 13, "O"⟩, ⟨"Paris", 14, 19, "O"⟩]]

/-- The model predictions for `exSample` (one sub-token per word). -/
def predsSample : List SentPrediction :=
  [⟨["B-PER", "O", "O", "B-LOC"], [0, 1, 2, 3]⟩]

/-- A concrete oracle environment: every call succeeds except that example
reading fails for `bad.txt` and the raw-text read fails for `noread.txt`. -/
def sampleEnv : Env where
  loadLabel2idx := fun _ => .ok [("O", 0), ("B-LOC", 1)]
  loadConfigUseCrf := fun _ => .ok false
  loadModel := fun _ => .ok ()
  getTestExamples := fun n =>
    if n = "bad.txt" then .error "Traceback: malformed file" else .ok exSample
  convertFeatures := fun _ => .ok ⟨0⟩
  predict := fun _ => .ok predsSample
  readFile := fun n =>
    if n = "noread.txt" then .error "Traceback: IOError" else .ok "John lives in Paris"

/-- A concrete configuration with `use_bio = false` (the in-memory path). -/
def sampleArgs : Args where
  model_type := "bert"
  pretrained_model := "model"
  preprocessed_text_dir := "in"
  raw_text_dir := "raw"
  data_has_offset_information := true
  output_dir := "runs/out"
  output_dir_brat := none
  do_lower_case := false
  eval_batch_size := 8
  max_seq_length := 128
  do_format := 1
  do_copy := false
  use_bio := false

/-- `sampleArgs` after `mainSetup` under `sampleEnv`. -/
def sampleArgsSetup : Args :=
  { sampleArgs with
    label2idx := [("O", 0), ("B-LOC", 1)]
    idx2label := [(0, "O"), (1, "B-LOC")]
    use_crf := false }

/-- A concrete loop state whose configuration selects `use_bio = true`. -/
def stBio : LoopState :=
  ⟨{ sampleArgs with output_dir := "out", use_bio := true }, [], [], []⟩

/-- A concrete loop state whose configuration selects `use_bio = false`. -/
def stMem : LoopState := ⟨sampleArgs, [], [], []⟩

/-! ### Helper lemmas -/

/-- `splitOnChar` never returns the empty list. -/
theorem splitOnChar_ne_nil (c : Char) (s : List Char) : splitOnChar c s ≠ [] := by
  cases s with
  | nil => simp [splitOnChar]
  | cons x xs =>
    simp only [splitOnChar]
    by_cases h : x = c
    · simp [h]
    · simp only [h, if_false]
      cases splitOnChar c xs <;> simp

/-- Splitting on a character that does not occur yields the whole string as
the single segment. -/
theorem splitOnChar_of_not_mem {c : Char} {s : List Char} (h : c ∉ s) :
    splitOnChar c s = [s] := by
  induction s with
  | nil => rfl
  | cons x xs ih =>
    have hx : ¬x = c := fun hc => h (hc ▸ List.mem_cons_self x xs)
    have hxs : c ∉ xs := fun hc => h (List.mem_cons_of_mem x hc)
    simp only [splitOnChar, hx, if_false, ih hxs]

/-- A `text \t tag` line is never blank. -/
theorem bio_line_ne_empty (a b : String) : a ++ "\t" ++ b ≠ "" := by
  intro h
  have hlen := congrArg String.length h
  simp only [String.length_append] at hlen
  rw [show String.length "\t" = 1 from rfl, show String.length "" = 0 from rfl] at hlen
  omega

/-- Looking up the key just updated finds the updated entry (with the
`defaultdict` default when the key was absent). -/
theorem lookupAcc_updateAcc_self (acc : List (String × Entry)) (name : String)
    (f : Entry → Entry) :
    lookupAcc (updateAcc acc name f) name = some (f ((lookupAcc acc name).getD {})) := by
  induction acc with
  | nil => simp [updateAcc, lookupAcc]
  | cons p ps ih =>
    by_cases h : p.1 = name
    · simp [updateAcc, lookupAcc, h]
    · simp [updateAcc, lookupAcc, h, ih]

/-- Looking up the path just written finds the written content. -/
theorem lookupFs_writeFs_self (fs : List (String × String)) (path c : String) :
    lookupFs (writeFs fs path c) path = some c := by
  induction fs with
  | nil => simp [writeFs, lookupFs]
  | cons p ps ih =>
    by_cases h : p.1 = path
    · simp [writeFs, lookupFs, h]
    · simp [writeFs, lookupFs, h, ih]

/-! ### The loop state minus the log

`processFile` reads and writes only `args`, `fs` and `acc`; the log is
write-only (append).  Projecting the log away lets the effect of the loop be
computed file by file, independently of what was logged before. -/

/-- The loop state without the log. -/
structure OutState where
  args : Args
  fs : List (String × String)
  acc : List (String × Entry)
deriving Repr

/-- Forget the log. -/
def LoopState.out (st : LoopState) : OutState := ⟨st.args, st.fs, st.acc⟩

/-- The effect of one loop iteration on the log-free state. -/
def stepOut (env : Env) (o : OutState) (fname : String) : OutState :=
  (processFile env ⟨o.args, o.fs, o.acc, []⟩ fname).out

/-- One loop iteration's effect on `args`/`fs`/`acc` does not depend on the
log. -/
theorem processFile_out (env : Env) (st : LoopState) (f : String) :
    (processFile env st f).out = stepOut env st.out f := by
  cases h1 : env.getTestExamples f with
  | error e => simp [stepOut, LoopState.out, processFile, logFileError, h1]
  | ok ex =>
    cases h2 : env.convertFeatures ex with
    | error e => simp [stepOut, LoopState.out, processFile, logFileError, h1, h2]
    | ok feats =>
      cases h3 : env.predict feats with
      | error e =>
        simp [stepOut, LoopState.out, processFile, logFileError, h1, h2, h3]
      | ok preds =>
        by_cases hb : st.args.use_bio = true
        · simp [stepOut, LoopState.out, processFile, logFileError, h1, h2, h3, hb]
        · cases h4 : env.readFile f with
          | error e =>
            simp [stepOut, LoopState.out, processFile, logFileError,
              h1, h2, h3, hb, h4]
          | ok raw =>
            simp [stepOut, LoopState.out, processFile, logFileError,
              h1, h2, h3, hb, h4]

/-- The loop's effect on `args`/`fs`/`acc` is the fold of the per-file
effects. -/
theorem mainLoop_out (env : Env) (st : LoopState) (files : List String) :
    (mainLoop env st files).out = files.foldl (stepOut env) st.out := by
  induction files generalizing st with
  | nil => rfl
  | cons f fs ih =>
    show (mainLoop env (processFile env st f) fs).out = _
    rw [ih, processFile_out]
    rfl

/-- A file whose example reading raises leaves `args`/`fs`/`acc` untouched. -/
theorem stepOut_of_failing (env : Env) (o : OutState) (bad e : String)
    (h : env.getTestExamples bad = .error e) : stepOut env o bad = o := by
  simp [stepOut, processFile, h, logFileError, LoopState.out]

/-- One loop iteration only appends to the log. -/
theorem processFile_log_extend (env : Env) (st : LoopState) (f : String) :
    ∃ t, (processFile env st f).log = st.log ++ t := by
  cases h1 : env.getTestExamples f with
  | error e =>
    exact ⟨[errorHeader f, e], by simp [processFile, logFileError, h1]⟩
  | ok ex =>
    cases h2 : env.convertFeatures ex with
    | error e =>
      exact ⟨[errorHeader f, e], by simp [processFile, logFileError, h1, h2]⟩
    | ok feats =>
      cases h3 : env.predict feats with
      | error e =>
        exact ⟨[errorHeader f, e], by simp [processFile, logFileError, h1, h2, h3]⟩
      | ok preds =>
        by_cases hb : st.args.use_bio = true
        · exact ⟨[], by simp [processFile, logFileError, h1, h2, h3, hb]⟩
        · cases h4 : env.readFile f with
          | error e =>
            exact ⟨[errorHeader f, e],
              by simp [processFile, logFileError, h1, h2, h3, hb, h4]⟩
          | ok raw =>
            exact ⟨[], by simp [processFile, logFileError, h1, h2, h3, hb, h4]⟩

/-- The loop only appends to the log. -/
theorem mainLoop_log_extend (env : Env) (st : LoopState) (files : List String) :
    ∃ t, (mainLoop env st files).log = st.log ++ t := by
  induction files generalizing st with
  | nil => exact ⟨[], by simp [mainLoop]⟩
  | cons f fs ih =>
    obtain ⟨t1, h1⟩ := processFile_log_extend env st f
    obtain ⟨t2, h2⟩ := ih (processFile env st f)
    exact ⟨t1 ++ t2, by simp [mainLoop] at h2 ⊢; rw [h2, h1, List.append_assoc]⟩

/-- Non-blank line count distributes over append. -/
theorem countNonBlank_append (a b : List String) :
    countNonBlank (a ++ b) = countNonBlank a + countNonBlank b := by
  simp [countNonBlank, List.filter_append]

/-- One sentence's BIO block (its token lines plus the blank separator)
has as many non-blank lines as token/label pairs. -/
theorem countNonBlank_sentence (s : Sentence) (ls : List String) :
    countNonBlank (sentenceBioLines s ls ++ [""]) = (s.zip ls).length := by
  unfold countNonBlank sentenceBioLines
  rw [List.filter_append]
  have h1 : List.filter (fun l => decide (l ≠ "")) [""] = [] := by simp
  have h2 : ((s.zip ls).map (fun tl => tl.1.text ++ "\t" ++ tl.2)).filter
      (fun l => decide (l ≠ "")) =
      (s.zip ls).map (fun tl => tl.1.text ++ "\t" ++ tl.2) := by
    rw [List.filter_eq_self]
    intro a ha
    obtain ⟨tl, -, rfl⟩ := List.mem_map.mp ha
    simpa using bio_line_ne_empty tl.1.text tl.2
  rw [h1, h2]
  simp

/-- C6: for a file whose feature alignment records one first-sub-token index
per original word (the Feature invariant), the word-level realignment has
exactly as many entries as the file has tokens, and the BIO output for the
file contains exactly that many non-blank lines (one `text \t tag` line per
token, the blank sentence separators excluded). -/
theorem realignment_and_line_count (ex : TestExample) (preds : List SentPrediction)
    (h : List.Forall₂ (fun (s : Sentence) (p : SentPrediction) =>
          p.firstSub.length = s.length) ex preds) :
    ((ex.zip preds).map (fun sp => (wordLevelLabels sp.2).length)).sum
        = totalTokens ex ∧
    countNonBlank (bioLines ex preds) = totalTokens ex := by
  induction h with
  | nil => simp [bioLines, totalTokens, countNonBlank]
  | @cons s p ex2 preds2 h1 h2 ih =>
    have hlen : (wordLevelLabels p).length = s.length := by
      simpa [wordLevelLabels] using h1
    constructor
    · simp only [List.zip_cons_cons, List.map_cons, List.sum_cons, hlen]
      rw [ih.1]
      simp [totalTokens]
    · have hsplit : bioLines (s :: ex2) (p :: preds2) =
          (sentenceBioLines s (wordLevelLabels p) ++ [""]) ++ bioLines ex2 preds2 := by
        simp [bioLines]
      rw [hsplit, countNonBlank_append, countNonBlank_sentence, ih.2]
      simp [totalTokens, hlen]

/-- Witness for `realignment_and_line_count` at the spec §8 scenario:
four tokens, four realigned labels, four non-blank output lines. -/
theorem realignment_and_line_count_witness :
    ((exSample.zip predsSample).map (fun sp => (wordLevelLabels sp.2).length)).sum
        = totalTokens exSample ∧
    countNonBlank (bioLines exSample predsSample) = totalTokens exSample := by
  refine realignment_and_line_count exSample predsSample ?_
  refine List.Forall₂.cons ?_ List.Forall₂.nil
  decide

/-- C8: the module-level assertion makes the program fail fatally at import
when the installed transformers version is below 3.0.0 (no file is
processed: the result is the bare assertion error), and lets startup proceed
to `main` when the version is at least 3.0.0. -/
theorem version_gate (v : Version) (env : Env) (args : Args) (files : List String) :
    runProgram v env args files =
      if v.major < 3 then
        .error "we now only support transformers version >=3.0.0"
      else runMain env args files := by
  by_cases h : v.major < 3
  · have hlt : versionLt v ⟨3, 0, 0⟩ = true := by
      simp only [versionLt, decide_eq_true_eq]
      omega
    simp [runProgram, checkTransformersVersion, hlt, h]
  · have hlt : versionLt v ⟨3, 0, 0⟩ = false := by
      simp only [versionLt, decide_eq_false_iff_not]
      omega
    simp [runProgram, checkTransformersVersion, hlt, h]

/-- The converter call built when formatting is requested. -/
theorem formatStep_eq (st : LoopState) (h : st.args.do_format ≠ 0) :
    formatStep st = some
      { text_dir := st.args.raw_text_dir
        input_bio_dir :=
          if st.args.use_bio then st.args.output_dir else st.args.raw_text_dir
        output_dir := formattedOutputDir st.args
        formatter := st.args.do_format
        do_copy_text := st.args.do_copy
        labeled_bio_tup_lst := st.acc
        use_bio := st.args.use_bio } := by
  simp [formatStep, h]

/-- C5: when formatting is requested and `output_dir_brat` is given, that
path is handed to the format converter; when it is absent the directory is
auto-derived as `output_dir`'s parent joined with
`<output_dir stem>_formatted_output`. -/
theorem formatted_output_dir_derivation (st : LoopState)
    (h : st.args.do_format ≠ 0) :
    ∃ c, formatStep st = some c ∧
      (∀ p, st.args.output_dir_brat = some p → c.output_dir = p) ∧
      (st.args.output_dir_brat = none →
        c.output_dir = joinPath (parentPath st.args.output_dir)
          (pathStem st.args.output_dir ++ "_formatted_output")) := by
  refine ⟨_, formatStep_eq st h, ?_, ?_⟩
  · intro p hp
    simp [formattedOutputDir, hp]
  · intro hn
    simp [formattedOutputDir, hn]

/-- Witness for `formatted_output_dir_derivation`: with `output_dir` equal to
`runs/out` and no `output_dir_brat`, the converter receives
`runs/out_formatted_output`. -/
theorem formatted_output_dir_derivation_witness :
    ∃ c, formatStep stMem = some c ∧ c.output_dir = "runs/out_formatted_output" := by
  obtain ⟨c, hc, -, hnone⟩ := formatted_output_dir_derivation stMem (by decide)
  refine ⟨c, hc, ?_⟩
  rw [hnone rfl]
  rfl

/-- C7: with no `*.txt` files in the input directory the loop body never
runs: given a successful setup, the run completes with `.ok`, zero BIO files
written and nothing logged. -/
theorem empty_input_normal_completion (env : Env) (args args' : Args)
    (h : mainSetup env args = .ok args') :
    ∃ st c, runMain env args [] = .ok (st, c) ∧ st.fs = [] ∧ st.log = [] :=
  ⟨⟨args', [], [], []⟩, formatStep ⟨args', [], [], []⟩,
    by simp [runMain, h, mainLoop], rfl, rfl⟩

/-- Witness for `empty_input_normal_completion` at the sample fixtures. -/
theorem empty_input_normal_completion_witness :
    ∃ st c, runMain sampleEnv sampleArgs [] = .ok (st, c) ∧
      st.fs = [] ∧ st.log = [] :=
  empty_input_normal_completion sampleEnv sampleArgs sampleArgsSetup rfl

/-- C3 counterexample: for input `doc.note.txt`, whose stem is `doc.note`,
the file written is `doc.bio.txt`, not `<stem>.bio.txt` = `doc.note.bio.txt`:
the name uses only the part of the stem before its first dot. -/
theorem output_name_first_dot_counterexample :
    stem "doc.note.txt" = "doc.note" ∧
    outputFileName "doc.note.txt" = "doc.bio.txt" ∧
    outputFileName "doc.note.txt" ≠ stem "doc.note.txt" ++ ".bio.txt" ∧
    lookupFs (processFile sampleEnv stBio "doc.note.txt").fs
      (joinPath stBio.args.output_dir (stem "doc.note.txt" ++ ".bio.txt")) = none ∧
    lookupFs (processFile sampleEnv stBio "doc.note.txt").fs
      (joinPath stBio.args.output_dir (outputFileName "doc.note.txt"))
      = some (bioFileContent exSample predsSample) := by
  exact ⟨rfl, rfl, by decide, rfl, rfl⟩

/-- C3 amended: the BIO output file is named by the portion of the input
file's stem before its first dot, followed by `.bio.txt`; when the stem
contains no dot this coincides with `<stem>.bio.txt`. -/
theorem output_file_name_amended (name : String) :
    outputFileName name = headSegment (stem name) ++ ".bio.txt" ∧
    ('.' ∉ (stem name).toList →
      outputFileName name = stem name ++ ".bio.txt") := by
  refine ⟨rfl, fun h => ?_⟩
  have h2 : '.' ∉ stemChars name.data := h
  show headSegment (stem name) ++ ".bio.txt" = stem name ++ ".bio.txt"
  have h3 : headSegment (stem name) = stem name := by
    simp [headSegment, stem, splitOnChar_of_not_mem h2]
  rw [h3]

/-- Witness for `output_file_name_amended` at `doc.txt`. -/
theorem output_file_name_amended_witness :
    '.' ∉ (stem "doc.txt").toList ∧
    outputFileName "doc.txt" = stem "doc.txt" ++ ".bio.txt" :=
  ⟨by decide, (output_file_name_amended "doc.txt").2 (by decide)⟩

/-- C9: the input-name-to-output-path mapping is not injective: two distinct
names that agree on the part of the stem before the first dot map to the
same output filename, and writing the second file's content to that path
overwrites the first's. -/
theorem output_name_collision_overwrite (n1 n2 out c1 c2 : String)
    (fs : List (String × String)) (_hne : n1 ≠ n2)
    (hagree : headSegment (stem n1) = headSegment (stem n2)) :
    outputFileName n1 = outputFileName n2 ∧
    lookupFs (writeFs (writeFs fs (joinPath out (outputFileName n1)) c1)
        (joinPath out (outputFileName n2)) c2)
      (joinPath out (outputFileName n1)) = some c2 := by
  have h : outputFileName n1 = outputFileName n2 := by
    simp [outputFileName, hagree]
  exact ⟨h, by rw [h]; exact lookupFs_writeFs_self _ _ _⟩

/-- Witness for `output_name_collision_overwrite` at `doc.txt` and
`doc.note.txt`: both map to `doc.bio.txt` and the second write wins. -/
theorem output_name_collision_overwrite_witness :
    outputFileName "doc.txt" = outputFileName "doc.note.txt" ∧
    lookupFs (writeFs (writeFs [] (joinPath "out" (outputFileName "doc.txt")) "first")
        (joinPath "out" (outputFileName "doc.note.txt")) "second")
      (joinPath "out" (outputFileName "doc.txt")) = some "second" :=
  output_name_collision_overwrite "doc.txt" "doc.note.txt" "out" "first" "second" []
    (by decide) (by decide)

/-- C1 (the intended branch, which the committed source mis-indents into a
parse error): after a successful read/convert/predict for one file,
`use_bio = true` writes the BIO output directly to `output_dir` under the
derived filename (recording the path in `predict_output_file`), while
`use_bio = false` leaves the file system untouched and accumulates the
`save_bio=False` result of `_output_bio` in `labeled_bio_tup_lst` under the
file's name for the formatting pass. -/
theorem intended_use_bio_branch (env : Env) (st : LoopState) (f : String)
    (ex : TestExample) (feats : Features) (preds : List SentPrediction)
    (h1 : env.getTestExamples f = .ok ex)
    (h2 : env.convertFeatures ex = .ok feats)
    (h3 : env.predict feats = .ok preds) :
    (st.args.use_bio = true →
      processFile env st f =
        { st with
          args := { st.args with
            predict_output_file := joinPath st.args.output_dir (outputFileName f) }
          fs := writeFs st.fs (joinPath st.args.output_dir (outputFileName f))
                  (bioFileContent ex preds) }) ∧
    (st.args.use_bio = false →
      (processFile env st f).fs = st.fs ∧
      ∃ en, lookupAcc (processFile env st f).acc f = some en ∧
        en.sents = some (outputBioMem ex preds)) := by
  constructor
  · intro hb
    simp [processFile, h1, h2, h3, hb]
  · intro hb
    cases h4 : env.readFile f with
    | error e =>
      refine ⟨by simp [processFile, h1, h2, h3, hb, h4, logFileError], ?_⟩
      have hacc : (processFile env st f).acc =
          setSents st.acc f (outputBioMem ex preds) := by
        simp [processFile, h1, h2, h3, hb, h4, logFileError]
      rw [hacc, setSents, lookupAcc_updateAcc_self]
      exact ⟨_, rfl, rfl⟩
    | ok raw =>
      refine ⟨by simp [processFile, h1, h2, h3, hb, h4], ?_⟩
      have hacc : (processFile env st f).acc =
          setRaw (setSents st.acc f (outputBioMem ex preds)) f raw := by
        simp [processFile, h1, h2, h3, hb, h4]
      rw [hacc, setRaw, lookupAcc_updateAcc_self]
      refine ⟨_, rfl, ?_⟩
      rw [setSents, lookupAcc_updateAcc_self]
      rfl

/-- Witness for `intended_use_bio_branch`: processing `doc.txt` with
`use_bio = true` leaves the spec §8 BIO content at `out/doc.bio.txt`. -/
theorem intended_use_bio_branch_witness :
    lookupFs (processFile sampleEnv stBio "doc.txt").fs
      (joinPath "out" (outputFileName "doc.txt"))
      = some (bioFileContent exSample predsSample) := by
  rw [(intended_use_bio_branch sampleEnv stBio "doc.txt" exSample ⟨0⟩ predsSample
        rfl rfl rfl).1 rfl]
  exact lookupFs_writeFs_self _ _ _

/-- C2: an exception while processing one file is caught: the filename and
the traceback are logged, and the final `args`/`fs`/`acc` state is exactly
that of the run without the faulty file; the run (including setup) still
returns `.ok`. -/
theorem faulty_file_isolation (env : Env) (args args' : Args)
    (l1 l2 : List String) (bad e : String)
    (hsetup : mainSetup env args = .ok args')
    (hbad : env.getTestExamples bad = .error e) :
    ∃ stF cF stR cR,
      runMain env args (l1 ++ bad :: l2) = .ok (stF, cF) ∧
      runMain env args (l1 ++ l2) = .ok (stR, cR) ∧
      stF.args = stR.args ∧ stF.fs = stR.fs ∧ stF.acc = stR.acc ∧
      errorHeader bad ∈ stF.log ∧ e ∈ stF.log := by
  have hrunF : runMain env args (l1 ++ bad :: l2) =
      .ok (mainLoop env ⟨args', [], [], []⟩ (l1 ++ bad :: l2),
        formatStep (mainLoop env ⟨args', [], [], []⟩ (l1 ++ bad :: l2))) := by
    simp [runMain, hsetup]
  have hrunR : runMain env args (l1 ++ l2) =
      .ok (mainLoop env ⟨args', [], [], []⟩ (l1 ++ l2),
        formatStep (mainLoop env ⟨args', [], [], []⟩ (l1 ++ l2))) := by
    simp [runMain, hsetup]
  have hout : (mainLoop env ⟨args', [], [], []⟩ (l1 ++ bad :: l2)).out =
      (mainLoop env ⟨args', [], [], []⟩ (l1 ++ l2)).out := by
    rw [mainLoop_out, mainLoop_out, List.foldl_append, List.foldl_append,
      List.foldl_cons, stepOut_of_failing env _ bad e hbad]
  have hsplit : mainLoop env ⟨args', [], [], []⟩ (l1 ++ bad :: l2) =
      mainLoop env
        (processFile env (mainLoop env ⟨args', [], [], []⟩ l1) bad) l2 := by
    simp [mainLoop, List.foldl_append]
  have hlogbad : (processFile env (mainLoop env ⟨args', [], [], []⟩ l1) bad).log =
      (mainLoop env ⟨args', [], [], []⟩ l1).log ++ [errorHeader bad, e] := by
    simp [processFile, hbad, logFileError]
  obtain ⟨t, ht⟩ := mainLoop_log_extend env
    (processFile env (mainLoop env ⟨args', [], [], []⟩ l1) bad) l2
  have hmem : errorHeader bad ∈
        (mainLoop env ⟨args', [], [], []⟩ (l1 ++ bad :: l2)).log ∧
      e ∈ (mainLoop env ⟨args', [], [], []⟩ (l1 ++ bad :: l2)).log := by
    rw [hsplit, ht, hlogbad]
    constructor <;> simp
  exact ⟨_, _, _, _, hrunF, hrunR,
    congrArg OutState.args hout, congrArg OutState.fs hout,
    congrArg OutState.acc hout, hmem.1, hmem.2⟩

/-- Witness for `faulty_file_isolation`: `bad.txt` between two good files is
logged and the other two files' results are those of the two-file run. -/
theorem faulty_file_isolation_witness :
    ∃ stF cF stR cR,
      runMain sampleEnv sampleArgs (["doc.txt"] ++ "bad.txt" :: ["doc2.txt"])
        = .ok (stF, cF) ∧
      runMain sampleEnv sampleArgs (["doc.txt"] ++ ["doc2.txt"]) = .ok (stR, cR) ∧
      stF.args = stR.args ∧ stF.fs = stR.fs ∧ stF.acc = stR.acc ∧
      errorHeader "bad.txt" ∈ stF.log ∧ "Traceback: malformed file" ∈ stF.log :=
  faulty_file_isolation sampleEnv sampleArgs sampleArgsSetup
    ["doc.txt"] ["doc2.txt"] "bad.txt" "Traceback: malformed file" rfl rfl

/-- C10: with `use_bio` false, if `_output_bio` succeeds but the raw-text
read of the same file then raises, the accumulator keeps a partial entry for
that filename (`sents` present, `raw_text` absent), the error is logged, and
the formatting pass still passes the whole accumulator — partial entry
included — to the converter. -/
theorem partial_entry_on_read_failure (env : Env) (st : LoopState) (f : String)
    (ex : TestExample) (feats : Features) (preds : List SentPrediction) (e : String)
    (hb : st.args.use_bio = false)
    (h1 : env.getTestExamples f = .ok ex)
    (h2 : env.convertFeatures ex = .ok feats)
    (h3 : env.predict feats = .ok preds)
    (h4 : env.readFile f = .error e)
    (h5 : lookupAcc st.acc f = none) :
    lookupAcc (processFile env st f).acc f =
      some { sents := some (outputBioMem ex preds), raw_text := none } ∧
    (processFile env st f).log = st.log ++ [errorHeader f, e] ∧
    (st.args.do_format ≠ 0 →
      ∃ c, formatStep (processFile env st f) = some c ∧
        c.labeled_bio_tup_lst = (processFile env st f).acc) := by
  have hacc : (processFile env st f).acc =
      setSents st.acc f (outputBioMem ex preds) := by
    simp [processFile, h1, h2, h3, hb, h4, logFileError]
  have hargs : (processFile env st f).args = st.args := by
    simp [processFile, h1, h2, h3, hb, h4, logFileError]
  refine ⟨?_, ?_, ?_⟩
  · rw [hacc, setSents, lookupAcc_updateAcc_self, h5]
    rfl
  · simp [processFile, h1, h2, h3, hb, h4, logFileError]
  · intro hf
    exact ⟨_, formatStep_eq _ (by rw [hargs]; exact hf), rfl⟩

/-- Witness for `partial_entry_on_read_failure` at `noread.txt` under the
sample fixtures. -/
theorem partial_entry_on_read_failure_witness :
    lookupAcc (processFile sampleEnv stMem "noread.txt").acc "noread.txt" =
      some { sents := some (outputBioMem exSample predsSample), raw_text := none } ∧
    (processFile sampleEnv stMem "noread.txt").log =
      stMem.log ++ [errorHeader "noread.txt", "Traceback: IOError"] ∧
    (stMem.args.do_format ≠ 0 →
      ∃ c, formatStep (processFile sampleEnv stMem "noread.txt") = some c ∧
        c.labeled_bio_tup_lst = (processFile sampleEnv stMem "noread.txt").acc) :=
  partial_entry_on_read_failure sampleEnv stMem "noread.txt" exSample ⟨0⟩
    predsSample "Traceback: IOError" rfl rfl rfl rfl rfl rfl

/-- A successful `mainSetup` comes from successful loads and returns the
input configuration with the vocabulary and `use_crf` attached. -/
theorem mainSetup_ok (env : Env) (args args' : Args)
    (h : mainSetup env args = .ok args') :
    ∃ l2i crf u,
      env.loadLabel2idx (joinPath args.pretrained_model "label2idx.json")
        = .ok l2i ∧
      env.loadConfigUseCrf args.pretrained_model = .ok crf ∧
      env.loadModel args.pretrained_model = .ok u ∧
      args' = { args with
        label2idx := l2i
        idx2label := l2i.map (fun p => (p.2, p.1))
        use_crf := crf } := by
  cases hl : env.loadLabel2idx (joinPath args.pretrained_model "label2idx.json") with
  | error e => simp [mainSetup, hl] at h
  | ok l2i =>
    cases hc : env.loadConfigUseCrf args.pretrained_model with
    | error e => simp [mainSetup, hl, hc] at h
    | ok crf =>
      cases hm : env.loadModel args.pretrained_model with
      | error e => simp [mainSetup, hl, hc, hm] at h
      | ok u =>
        refine ⟨l2i, crf, u, rfl, rfl, rfl, ?_⟩
        simp only [mainSetup, hl, hc, hm, Except.ok.injEq] at h
        exact h.symm

/-- C4 counterexample: the configuration object is not read-only after
argument parsing: `mainSetup` returns an `args` different from the parsed
one (it attaches the label vocabulary), and a `use_bio` loop iteration
changes `args` again (it sets `predict_output_file`). -/
theorem config_mutated_counterexample :
    (∃ a, mainSetup sampleEnv sampleArgs = .ok a ∧ a ≠ sampleArgs) ∧
    (processFile sampleEnv stBio "doc.txt").args ≠ stBio.args :=
  ⟨⟨sampleArgsSetup, rfl, by decide⟩, by decide⟩

/-- C4 amended: the configuration is mutated after parsing, but only in the
attached fields: `mainSetup` preserves every CLI-parsed field while setting
`label2idx`/`idx2label` from the loaded vocabulary, and a loop iteration
either leaves `args` unchanged or changes only `predict_output_file`. -/
theorem config_mutation_scope (env : Env) (args args' : Args)
    (h : mainSetup env args = .ok args') :
    (args'.model_type = args.model_type ∧
     args'.pretrained_model = args.pretrained_model ∧
     args'.preprocessed_text_dir = args.preprocessed_text_dir ∧
     args'.raw_text_dir = args.raw_text_dir ∧
     args'.data_has_offset_information = args.data_has_offset_information ∧
     args'.output_dir = args.output_dir ∧
     args'.output_dir_brat = args.output_dir_brat ∧
     args'.do_lower_case = args.do_lower_case ∧
     args'.eval_batch_size = args.eval_batch_size ∧
     args'.max_seq_length = args.max_seq_length ∧
     args'.do_format = args.do_format ∧
     args'.do_copy = args.do_copy ∧
     args'.use_bio = args.use_bio) ∧
    (∃ l2i, env.loadLabel2idx (joinPath args.pretrained_model "label2idx.json")
        = .ok l2i ∧
      args'.label2idx = l2i ∧
      args'.idx2label = l2i.map (fun p => (p.2, p.1))) ∧
    (∀ env2 st2 f2, (processFile env2 st2 f2).args = st2.args ∨
      (processFile env2 st2 f2).args =
        { st2.args with
            predict_output_file := joinPath st2.args.output_dir (outputFileName f2) }) := by
  obtain ⟨l2i, crf, u, hl, hc, hm, rfl⟩ := mainSetup_ok env args args' h
  refine ⟨⟨rfl, rfl, rfl, rfl, rfl, rfl, rfl, rfl, rfl, rfl, rfl, rfl, rfl⟩,
    ⟨l2i, hl, rfl, rfl⟩, ?_⟩
  intro env2 st2 f2
  cases hx1 : env2.getTestExamples f2 with
  | error e => exact .inl (by simp [processFile, logFileError, hx1])
  | ok ex =>
    cases hx2 : env2.convertFeatures ex with
    | error e => exact .inl (by simp [processFile, logFileError, hx1, hx2])
    | ok feats =>
      cases hx3 : env2.predict feats with
      | error e =>
        exact .inl (by simp [processFile, logFileError, hx1, hx2, hx3])
      | ok preds =>
        by_cases hbb : st2.args.use_bio = true
        · exact .inr (by simp [processFile, hx1, hx2, hx3, hbb])
        · cases hx4 : env2.readFile f2 with
          | error e =>
            exact .inl
              (by simp [processFile, logFileError, hx1, hx2, hx3, hbb, hx4])
          | ok raw =>
            exact .inl (by simp [processFile, hx1, hx2, hx3, hbb, hx4])

/-- Witness for `config_mutation_scope` at the sample fixtures. -/
theorem config_mutation_scope_witness :
    sampleArgsSetup.output_dir = sampleArgs.output_dir ∧
    sampleArgsSetup.label2idx = [("O", 0), ("B-LOC", 1)] := by
  obtain ⟨⟨-, -, -, -, -, h6, -⟩, ⟨l2i, hl, hl2, -⟩, -⟩ :=
    config_mutation_scope sampleEnv sampleArgs sampleArgsSetup rfl
  refine ⟨h6, ?_⟩
  rw [hl2]
  have : l2i = [("O", 0), ("B-LOC", 1)] := by
    have hok : Except.ok (ε := String) l2i = .ok [("O", 0), ("B-LOC", 1)] :=
      hl.symm.trans rfl
    exact Except.ok.inj hok
  rw [this]

end BatchNER
